import Mathlib

/-!
Verification of the IntelliJ SFCC config source (`src/sources/intellij-source.ts`).

The TypeScript core is shallowly embedded:

* JavaScript `undefined`-able fields become `Option`.
* JavaScript truthiness on optional strings / booleans is embedded by
  `strTruthy` / `boolTruthy` (the empty string and `false`/`undefined`
  are falsy; an array — even an empty one — is truthy).
* `Array.prototype.find` becomes `List.find?`, `Array.prototype.flatMap`
  becomes `List.flatMap`, JS object lookup becomes `lookupRecord` on an
  association list.
* External library calls (the XML parser, base64 decoding, the node
  cipher, `JSON.parse`) are oracles passed as function arguments: a call
  the source wraps in `try/catch` is an `Option`-valued oracle whose
  failure collapses to `none`, while a call made outside any `try/catch`
  — `readFileSync` and `XMLParser.parse` in `getConnectionSettings` —
  is an `Except`-valued oracle whose error the embedding must
  propagate, exactly as the thrown exception escapes the function.
* The environment-variable plumbing of `load` becomes explicit
  arguments.
-/

namespace IntellijSFCC

/-- Embeds `interface IntellijConnection` (all fields optional in TS). -/
structure IntellijConnection where
  name : Option String := none
  hostname : Option String := none
  secureHostname : Option String := none
  username : Option String := none
  codeVersion : Option String := none
  clientId : Option String := none
  shortCode : Option String := none
  useOcapi : Option Bool := none
  active : Option Bool := none
  isGroup : Option Bool := none
  configs : Option (List IntellijConnection) := none

/-- Embeds `interface ConnectionSettings`; `source` may be missing at
runtime since `JSON.parse`'s result is cast unchecked. -/
structure ConnectionSettings where
  source : Option (List IntellijConnection) := none

/-- Embeds one element of `Credentials.accounts[].accessKeys`. -/
structure AccessKeySet where
  username : String
  keys : List (String × List (String × String))
deriving DecidableEq

/-- Embeds one element of `Credentials.accounts`. -/
structure Account where
  username : String
  password : Option String := none
  hidePassword : Option Bool := none
  accessKeys : Option (List AccessKeySet) := none
deriving DecidableEq

/-- Embeds one element of `Credentials.ocapiKeys`. -/
structure OcapiKey where
  clientId : String
  clientSecret : String
deriving DecidableEq

/-- Embeds `interface Credentials`. -/
structure Credentials where
  accounts : List Account
  ocapiKeys : List OcapiKey
deriving DecidableEq

/-- Embeds `interface NormalizedConfig` (the fields this source sets). -/
structure NormalizedConfig where
  hostname : Option String := none
  webdavHostname : Option String := none
  username : Option String := none
  codeVersion : Option String := none
  shortCode : Option String := none
  clientId : Option String := none
  password : Option String := none
  clientSecret : Option String := none
deriving DecidableEq

/-- JS truthiness of a `string | undefined`: `undefined` and `""` are falsy. -/
def strTruthy : Option String → Bool
  | none => false
  | some s => !(s == "")

/-- JS truthiness of a `boolean | undefined`: only `true` is truthy. -/
def boolTruthy : Option Bool → Bool
  | none => false
  | some b => b

/-- JS object property access `record[key]` on a plain object embedded as
an association list: the first binding of the key, if any. -/
def lookupRecord {α : Type} (m : List (String × α)) (k : String) : Option α :=
  (m.find? (fun p => p.1 == k)).map (fun p => p.2)

/-- Embeds the flattening step of `IntelliJSource.load`:
`connectionSettings.source.flatMap((source) => source.isGroup && source.configs ? source.configs : [source])`.
Note that in JS an array — even `[]` — is truthy, so a group with a
present `configs` field is always replaced by its configs. -/
def flattenConnections (l : List IntellijConnection) : List IntellijConnection :=
  l.flatMap (fun s =>
    match s.isGroup, s.configs with
    | some true, some cs => cs
    | _, _ => [s])

/-- Embeds the selection step of `IntelliJSource.load`: by name when
`options.instance` is truthy (a non-empty string), else by `active` flag. -/
def selectConnection (l : List IntellijConnection) (instanceName : Option String) :
    Option IntellijConnection :=
  if strTruthy instanceName then
    l.find? (fun c => c.name == instanceName)
  else
    l.find? (fun c => boolTruthy c.active)

/-- The WebDAV access-key branch of `findPassword` (lines 160–167 of the
source): the first access-key set whose `username` matches is consulted;
its per-host mapping for `hostname` must hold a truthy (non-empty)
`WebDAV` entry, otherwise the branch yields nothing and control falls
through to the plain password. -/
def webdavKey (account : Account) (username hostname : String) : Option String :=
  match account.accessKeys with
  | none => none
  | some sets =>
    match sets.find? (fun ak => ak.username == username) with
    | none => none
    | some akSet =>
      match lookupRecord akSet.keys hostname with
      | none => none
      | some hostKeys =>
        match lookupRecord hostKeys "WebDAV" with
        | none => none
        | some w => if w == "" then none else some w

/-- Embeds `findPassword(credentials, username, hostname)`. -/
def findPassword (credentials : Credentials) (username hostname : String) :
    Option String :=
  match credentials.accounts.find? (fun a => a.username == username) with
  | none => none
  | some account =>
    match webdavKey account username hostname with
    | some w => some w
    | none => account.password

/-- Embeds `findClientSecret(credentials, clientId)`. -/
def findClientSecret (credentials : Credentials) (clientId : String) : Option String :=
  (credentials.ocapiKeys.find? (fun k => k.clientId == clientId)).map
    (fun k => k.clientSecret)

/-! ### The settings extractor

`getConnectionSettings` traverses the result of `XMLParser.parse` in
`preserveOrder` mode.  The parsed document is embedded by the three
record shapes the code's cast declares: a list of top-level entries, a
`project` entry holding component entries, components holding option
entries, each entry carrying an optional attribute record `:@`. -/

/-- The attribute record `:@` of a parsed XML element. -/
structure XAttrs where
  name : Option String := none
  value : Option String := none
deriving DecidableEq

/-- An entry inside a `component` element (an `option` element). -/
structure XOption where
  attr : Option XAttrs := none
deriving DecidableEq

/-- An entry inside the `project` element. -/
structure XProjChild where
  component : Option (List XOption) := none
  attr : Option XAttrs := none
deriving DecidableEq

/-- A top-level entry of the parsed document. -/
structure XTop where
  project : Option (List XProjChild) := none
deriving DecidableEq

/-- Embeds `getConnectionSettings(filename)`.

The result is `Except String (Option ConnectionSettings)`: `.ok`
carries the `ConnectionSettings | undefined` return value, `.error` a
thrown exception, because two calls in the body sit outside any
`try/catch` and their exceptions escape the function:

* `readFile` embeds `readFileSync` (line 78), which can throw even
  after `existsSync` succeeded (e.g. `EISDIR` on a directory, or the
  file disappearing in between);
* `parseXml` embeds `XMLParser.parse` (line 93): with validation off,
  `fast-xml-parser` still throws on several malformed inputs (unclosed
  comment, PI, CDATA, closing tag, DOCTYPE).

`fileExists` embeds `existsSync`; `parseJson` embeds `JSON.parse`,
which the code does wrap in `try/catch` (lines 125–129), so it is an
`Option`-valued oracle whose failure collapses to `undefined`. -/
def getConnectionSettings (fileExists : Bool) (readFile : Except String String)
    (parseXml : String → Except String (List XTop))
    (parseJson : String → Option ConnectionSettings) :
    Except String (Option ConnectionSettings) :=
  if !fileExists then .ok none
  else
    match readFile with
    | .error e => .error e
    | .ok content =>
      match parseXml content with
      | .error e => .error e
      | .ok xml =>
        match xml.find? (fun el => el.project.isSome) with
        | none => .ok none
        | some projectEl =>
          match projectEl.project with
          | none => .ok none
          | some proj =>
            match proj.find? (fun el =>
                el.component.isSome &&
                ((el.attr.bind XAttrs.name) == some "IntellijSFCCConnectionSettings")) with
            | none => .ok none
            | some comp =>
              match comp.component with
              | none => .ok none
              | some opts =>
                let jsonValue :=
                  ((opts.find? (fun o =>
                    (o.attr.bind XAttrs.name) == some "json")).bind
                    XOption.attr).bind XAttrs.value
                match jsonValue with
                | none => .ok none
                | some v => if v == "" then .ok none else .ok (parseJson v)

/-! ### The credential vault -/

/-- Embeds `decryptCredentials(cipherText, key, algorithm)`.

The node primitives are oracles: `base64Decode` embeds
`Buffer.from(cipherText, 'base64')`, `decrypt` embeds
`createDecipheriv(algorithm, key, null)` followed by
`update`/`final` (failing on an unknown algorithm, a key-length
mismatch, or a padding error), and `parseJson` embeds the UTF-8
decoding plus `JSON.parse` of the plaintext.  The whole body sits in a
`try/catch` returning `undefined`, so every oracle failure collapses
to `none`. -/
def decryptCredentials (base64Decode : String → Option (List Nat))
    (decrypt : String → String → List Nat → Option (List Nat))
    (parseJson : List Nat → Option Credentials)
    (cipherText key algorithm : String) : Option Credentials :=
  match base64Decode cipherText with
  | none => none
  | some buffer =>
    match decrypt algorithm key buffer with
    | none => none
    | some decrypted =>
      match parseJson decrypted with
      | none => none
      | some credentials => some credentials

/-! ### The load pipeline -/

/-- The password block of `IntelliJSource.load` (lines 244–250): when
the connection has a truthy `username` and `hostname`, look up a
password and set it only when the lookup result is truthy. -/
def applyPassword (config : NormalizedConfig) (conn : IntellijConnection)
    (credentials : Credentials) : NormalizedConfig :=
  if strTruthy conn.username && strTruthy conn.hostname then
    match conn.username, conn.hostname with
    | some u, some h =>
      match findPassword credentials u h with
      | some p => if p == "" then config else { config with password := some p }
      | none => config
    | _, _ => config
  else config

/-- The client-secret block of `IntelliJSource.load` (lines 252–258):
when the partially built config has a truthy `clientId`, look up a
client secret and set it only when the lookup result is truthy. -/
def applyClientSecret (config : NormalizedConfig) (credentials : Credentials) :
    NormalizedConfig :=
  if strTruthy config.clientId then
    match config.clientId with
    | some cid =>
      match findClientSecret credentials cid with
      | some s => if s == "" then config else { config with clientSecret := some s }
      | none => config
    | none => config
  else config

/-- The credential-application tail of `IntelliJSource.load`
(lines 243–259): the password block then the client-secret block. -/
def applyCredentials (config : NormalizedConfig) (conn : IntellijConnection)
    (credentials : Credentials) : NormalizedConfig :=
  applyClientSecret (applyPassword config conn credentials) credentials

/-- The base-config construction of `IntelliJSource.load`
(lines 221–232): the five direct field copies, plus `clientId` only
when `useOcapi` and `clientId` are both truthy. -/
def buildBaseConfig (conn : IntellijConnection) : NormalizedConfig :=
  { hostname := conn.hostname
    webdavHostname := conn.secureHostname
    username := conn.username
    codeVersion := conn.codeVersion
    shortCode := conn.shortCode
    clientId :=
      if boolTruthy conn.useOcapi && strTruthy conn.clientId then conn.clientId
      else none }

/-- The assembled output for a resolved connection: the base config,
with the credential blocks applied when a decrypted credential store is
available. -/
def assembleConfig (conn : IntellijConnection) (credentials : Option Credentials) :
    NormalizedConfig :=
  match credentials with
  | none => buildBaseConfig conn
  | some creds => applyCredentials (buildBaseConfig conn) conn creds

/-- Embeds `IntelliJSource.load(options)` after the environment/file
plumbing: `settings` is the result of `getConnectionSettings`,
`instanceName` is `options.instance`, and `credentials` is the result
of `decryptCredentials` when a credentials file and key were configured
and decryption succeeded (`none` otherwise, in which case the
credential block is skipped). -/
def load (settings : Option ConnectionSettings) (instanceName : Option String)
    (credentials : Option Credentials) : Option NormalizedConfig :=
  match settings with
  | none => none
  | some st =>
    match st.source with
    | none => none
    | some src =>
      if src.isEmpty then none
      else
        let allConnections := flattenConnections src
        match selectConnection allConnections instanceName with
        | none => none
        | some conn => some (assembleConfig conn credentials)

/-- A connection with every field absent, the base for concrete examples
(the recursive `configs` field has no usable default in instance
notation). -/
def emptyConn : IntellijConnection :=
  ⟨none, none, none, none, none, none, none, none, none, none, none⟩

/-! ### Helper lemmas -/

theorem find?_append_cons {α : Type} (p : α → Bool) (l1 l2 : List α) (a : α)
    (h1 : ∀ x ∈ l1, p x = false) (h2 : p a = true) :
    (l1 ++ a :: l2).find? p = some a := by
  induction l1 with
  | nil => simp [List.find?_cons, h2]
  | cons y ys ih =>
    have hy := h1 y (by simp)
    simpa [List.find?_cons, hy] using ih (fun x hx => h1 x (by simp [hx]))

theorem boolTruthy_eq_true {o : Option Bool} : boolTruthy o = true ↔ o = some true := by
  cases o with
  | none => simp [boolTruthy]
  | some b => cases b <;> simp [boolTruthy]

theorem strTruthy_some {s : String} (h : s ≠ "") : strTruthy (some s) = true := by
  simp [strTruthy, h]

/-! ### Selection claims -/

/-- C5: with a given (non-empty) instance name, selection returns the
first flattened record whose `name` is exactly the given name, and
absent when no record's name equals it — regardless of any `active`
records in the list. -/
theorem selectConnection_by_name (l l1 l2 : List IntellijConnection)
    (r : IntellijConnection) (inst : String) (hne : inst ≠ "") :
    ((∀ x ∈ l, x.name ≠ some inst) → selectConnection l (some inst) = none) ∧
    (l = l1 ++ r :: l2 → r.name = some inst → (∀ x ∈ l1, x.name ≠ some inst) →
      selectConnection l (some inst) = some r) := by
  constructor
  · intro hnone
    simp only [selectConnection, strTruthy_some hne, if_pos]
    exact List.find?_eq_none.mpr (fun x hx => by simp [hnone x hx])
  · intro hl hr hfirst
    simp only [selectConnection, strTruthy_some hne, if_pos]
    subst hl
    exact find?_append_cons _ l1 l2 r
      (fun x hx => by simp [hfirst x hx]) (by simp [hr])

/-- Witness for C5 at a concrete input: the list holds an active record
named `staging` and a record named `prod`; selecting `prod` returns the
`prod` record even though `staging` is active, and selecting `qa`
returns absent. -/
theorem selectConnection_by_name_witness :
    selectConnection
      [{ emptyConn with name := some "staging", active := some true },
       { emptyConn with name := some "prod", hostname := some "h1" }] (some "prod") =
      some { emptyConn with name := some "prod", hostname := some "h1" } ∧
    selectConnection
      [{ emptyConn with name := some "staging", active := some true },
       { emptyConn with name := some "prod", hostname := some "h1" }] (some "qa") = none := by
  constructor
  · exact (selectConnection_by_name _
      [{ emptyConn with name := some "staging", active := some true }] []
      { emptyConn with name := some "prod", hostname := some "h1" } "prod"
      (by decide)).2 rfl rfl (by decide)
  · exact (selectConnection_by_name _ [] []
      { emptyConn with name := some "prod", hostname := some "h1" } "qa"
      (by decide)).1 (by decide)

/-- C6: with no instance name, selection returns the first flattened
record with `active = true`, and absent when no record is active; the
earliest active record in flattened order wins. -/
theorem selectConnection_by_active (l l1 l2 : List IntellijConnection)
    (r : IntellijConnection) :
    ((∀ x ∈ l, x.active ≠ some true) → selectConnection l none = none) ∧
    (l = l1 ++ r :: l2 → r.active = some true → (∀ x ∈ l1, x.active ≠ some true) →
      selectConnection l none = some r) := by
  constructor
  · intro hnone
    simp only [selectConnection, strTruthy, Bool.false_eq_true, if_neg]
    exact List.find?_eq_none.mpr (fun x hx => by
      simp [boolTruthy_eq_true, hnone x hx])
  · intro hl hr hfirst
    simp only [selectConnection, strTruthy, Bool.false_eq_true, if_neg]
    subst hl
    exact find?_append_cons _ l1 l2 r
      (fun x hx => by
        simp only [Bool.eq_false_iff, ne_eq, boolTruthy_eq_true]
        exact hfirst x hx)
      (boolTruthy_eq_true.mpr hr)

/-- Witness for C6 at a concrete input: two records are active; the
earlier one is returned, and a list with no active record yields
absent. -/
theorem selectConnection_by_active_witness :
    selectConnection
      [{ emptyConn with name := some "a" }, { emptyConn with name := some "b", active := some true },
       { emptyConn with name := some "c", active := some true }] none =
      some { emptyConn with name := some "b", active := some true } ∧
    selectConnection [{ emptyConn with name := some "a" }, { emptyConn with name := some "c", active := some false }]
      none = none := by
  constructor
  · exact (selectConnection_by_active _ [{ emptyConn with name := some "a" }]
      [{ emptyConn with name := some "c", active := some true }]
      { emptyConn with name := some "b", active := some true }).2 rfl rfl (by decide)
  · exact (selectConnection_by_active _ [] [] { emptyConn with name := some "a" }).1 (by decide)

/-- C10: calling `load` with the empty string as the instance selector
behaves exactly like calling it with no selector: the empty string is
falsy in JS, so selection falls back to the `active` flag. -/
theorem load_empty_instance_selector (s : Option ConnectionSettings)
    (cr : Option Credentials) : load s (some "") cr = load s none cr := by
  have h : ∀ l, selectConnection l (some "") = selectConnection l none := by
    intro l; simp [selectConnection, strTruthy]
  cases s with
  | none => rfl
  | some st =>
    cases hsrc : st.source with
    | none => simp [load, hsrc]
    | some src => simp [load, hsrc, h]

/-- Whatever branch selection takes, the result is a member of the list. -/
theorem selectConnection_mem {l : List IntellijConnection} {i : Option String}
    {r : IntellijConnection} (h : selectConnection l i = some r) : r ∈ l := by
  unfold selectConnection at h
  split at h <;> exact List.mem_of_find?_eq_some h

/-! Concrete records used by witnesses. -/

def childConn1 : IntellijConnection := { emptyConn with name := some "c1" }

def childConn2 : IntellijConnection :=
  { emptyConn with name := some "c2", active := some true }

def groupConn : IntellijConnection :=
  { emptyConn with
    name := some "grp"
    isGroup := some true
    configs := some [childConn1, childConn2] }

def plainConn : IntellijConnection := { emptyConn with name := some "plain" }

/-- C1: in a well-formed settings list (children of groups are not
themselves groups), a top-level group record with a present `configs`
list is replaced in the flattened list by exactly its children, in
order; every record that is not a group-with-configs passes through
flattening unchanged; and selection — by name or by active flag — can
never return the group record itself. -/
theorem flatten_group_spec (pre post cs : List IntellijConnection)
    (g : IntellijConnection) (hg : g.isGroup = some true) (hc : g.configs = some cs)
    (hwf : ∀ s ∈ pre ++ g :: post, ∀ cs', s.configs = some cs' →
      ∀ c ∈ cs', c.isGroup ≠ some true) :
    flattenConnections (pre ++ g :: post) =
      flattenConnections pre ++ cs ++ flattenConnections post ∧
    (∀ s : IntellijConnection, ¬(s.isGroup = some true ∧ s.configs.isSome) →
      flattenConnections [s] = [s]) ∧
    (∀ inst, selectConnection (flattenConnections (pre ++ g :: post)) inst ≠ some g) := by
  refine ⟨?_, ?_, ?_⟩
  · simp [flattenConnections, List.flatMap_append, List.flatMap_cons, hg, hc]
  · intro s hs
    simp only [flattenConnections, List.flatMap_cons, List.flatMap_nil,
      List.append_nil]
    rcases h1 : s.isGroup with _ | b
    · rcases h2 : s.configs with _ | cs' <;> simp [h1, h2]
    · cases b with
      | false => rcases h2 : s.configs with _ | cs' <;> simp [h1, h2]
      | true =>
        rcases h2 : s.configs with _ | cs'
        · simp [h1, h2]
        · exact absurd ⟨h1, by rw [h2]; rfl⟩ hs
  · intro inst hsel
    have hmem := selectConnection_mem hsel
    rcases List.mem_flatMap.mp hmem with ⟨a, ha, hga⟩
    rcases h1 : a.isGroup with _ | b
    · rw [h1] at hga
      rcases h2 : a.configs with _ | cs' <;> rw [h2] at hga
      all_goals
        have hga' : g = a := by simpa using hga
        rw [← hga', hg] at h1
        exact Option.noConfusion h1
    · cases b with
      | false =>
        rw [h1] at hga
        rcases h2 : a.configs with _ | cs' <;> rw [h2] at hga
        all_goals
          have hga' : g = a := by simpa using hga
          rw [← hga'] at h1
          exact Bool.noConfusion (Option.some.inj (hg.symm.trans h1))
      | true =>
        rcases h2 : a.configs with _ | cs'
        · rw [h1, h2] at hga
          have hga' : g = a := by simpa using hga
          rw [← hga'] at h2
          exact Option.noConfusion (hc.symm.trans h2)
        · rw [h1, h2] at hga
          exact hwf a ha cs' h2 g hga hg

/-- Witness for C1 at a concrete input: a plain record, then a group
with two children, then another plain record; flattening splices in the
two children, and selection by the group's own name cannot return the
group record. -/
theorem flatten_group_spec_witness :
    flattenConnections [plainConn, groupConn, childConn1] =
      flattenConnections [plainConn] ++ [childConn1, childConn2] ++
        flattenConnections [childConn1] ∧
    selectConnection (flattenConnections [plainConn, groupConn, childConn1])
      (some "grp") ≠ some groupConn := by
  have h := flatten_group_spec [plainConn] [childConn1] [childConn1, childConn2]
    groupConn rfl rfl (by
      intro s hs cs' hcs'
      simp only [List.cons_append, List.nil_append, List.mem_cons,
        List.not_mem_nil, or_false] at hs
      rcases hs with rfl | rfl | rfl
      · simp [plainConn, emptyConn] at hcs'
      · have hconf : groupConn.configs = some [childConn1, childConn2] := rfl
        have : cs' = [childConn1, childConn2] :=
          Option.some.inj (hconf.symm.trans hcs').symm
        subst this
        intro c hc
        simp only [List.mem_cons, List.not_mem_nil, or_false] at hc
        rcases hc with rfl | rfl <;> simp [childConn1, childConn2, emptyConn]
      · simp [childConn1, emptyConn] at hcs')
  exact ⟨h.1, h.2.2 (some "grp")⟩

/-! ### Config assembly claims -/

theorem strTruthy_eq_true {o : Option String} :
    strTruthy o = true ↔ ∃ s, o = some s ∧ s ≠ "" := by
  cases o with
  | none => simp [strTruthy]
  | some s => simp [strTruthy]

theorem applyPassword_clientId (cfg : NormalizedConfig) (conn : IntellijConnection)
    (c : Credentials) : (applyPassword cfg conn c).clientId = cfg.clientId := by
  unfold applyPassword
  split
  · split
    · split
      · split <;> rfl
      · rfl
    · rfl
  · rfl

theorem applyClientSecret_clientId (cfg : NormalizedConfig) (c : Credentials) :
    (applyClientSecret cfg c).clientId = cfg.clientId := by
  unfold applyClientSecret
  split
  · split
    · split
      · split <;> rfl
      · rfl
    · rfl
  · rfl

theorem assembleConfig_clientId (conn : IntellijConnection)
    (cr : Option Credentials) :
    (assembleConfig conn cr).clientId = (buildBaseConfig conn).clientId := by
  cases cr with
  | none => rfl
  | some c =>
    show (applyClientSecret (applyPassword (buildBaseConfig conn) conn c) c).clientId
      = (buildBaseConfig conn).clientId
    rw [applyClientSecret_clientId, applyPassword_clientId]

/-- C8: for every resolved connection, `clientId` is present in the
assembled config — whether or not a credential store was applied — if
and only if the connection has `useOcapi = true` and a non-empty
`clientId`, and then it is that `clientId`. -/
theorem assembled_clientId_iff (conn : IntellijConnection) (cr : Option Credentials)
    (id : String) :
    (assembleConfig conn cr).clientId = some id ↔
      conn.useOcapi = some true ∧ conn.clientId = some id ∧ id ≠ "" := by
  rw [assembleConfig_clientId]
  show (if boolTruthy conn.useOcapi && strTruthy conn.clientId then conn.clientId
      else none) = some id ↔ _
  constructor
  · intro h
    split at h
    · rename_i hcond
      rw [Bool.and_eq_true] at hcond
      obtain ⟨s, hs, hne⟩ := strTruthy_eq_true.mp hcond.2
      refine ⟨boolTruthy_eq_true.mp hcond.1, h, ?_⟩
      rw [h] at hs
      exact (Option.some.inj hs) ▸ hne
    · exact Option.noConfusion h
  · rintro ⟨ho, hid, hne⟩
    have hcond : (boolTruthy conn.useOcapi && strTruthy conn.clientId) = true := by
      rw [Bool.and_eq_true]
      exact ⟨boolTruthy_eq_true.mpr ho, strTruthy_eq_true.mpr ⟨id, hid, hne⟩⟩
    rw [if_pos hcond]
    exact hid

/-! ### Non-empty password / client-secret invariant -/

theorem applyClientSecret_password (cfg : NormalizedConfig) (c : Credentials) :
    (applyClientSecret cfg c).password = cfg.password := by
  unfold applyClientSecret
  split
  · split
    · split
      · split <;> rfl
      · rfl
    · rfl
  · rfl

theorem applyPassword_clientSecret (cfg : NormalizedConfig)
    (conn : IntellijConnection) (c : Credentials) :
    (applyPassword cfg conn c).clientSecret = cfg.clientSecret := by
  unfold applyPassword
  split
  · split
    · split
      · split <;> rfl
      · rfl
    · rfl
  · rfl

theorem applyPassword_password_nonempty (cfg : NormalizedConfig)
    (conn : IntellijConnection) (c : Credentials) (p : String)
    (h0 : cfg.password = none)
    (h : (applyPassword cfg conn c).password = some p) : p ≠ "" := by
  unfold applyPassword at h
  split at h
  · split at h
    · split at h
      · split at h
        · exact absurd (h0.symm.trans h) (by simp)
        · rename_i q hcase hq
          have hqp : q = p := by simpa using h
          subst hqp
          simpa using hq
      · exact absurd (h0.symm.trans h) (by simp)
    · exact absurd (h0.symm.trans h) (by simp)
  · exact absurd (h0.symm.trans h) (by simp)

theorem applyClientSecret_clientSecret_nonempty (cfg : NormalizedConfig)
    (c : Credentials) (s : String) (h0 : cfg.clientSecret = none)
    (h : (applyClientSecret cfg c).clientSecret = some s) : s ≠ "" := by
  unfold applyClientSecret at h
  split at h
  · split at h
    · split at h
      · split at h
        · exact absurd (h0.symm.trans h) (by simp)
        · rename_i q hcase hq
          have hqs : q = s := by simpa using h
          subst hqs
          simpa using hq
      · exact absurd (h0.symm.trans h) (by simp)
    · exact absurd (h0.symm.trans h) (by simp)
  · exact absurd (h0.symm.trans h) (by simp)

/-- C9: every config returned by `load` keeps the invariant that a set
`password` is non-empty and a set `clientSecret` is non-empty: a lookup
yielding the empty string leaves the field absent. -/
theorem load_password_clientSecret_nonempty (s : Option ConnectionSettings)
    (i : Option String) (cr : Option Credentials) (cfg : NormalizedConfig)
    (h : load s i cr = some cfg) :
    (∀ p, cfg.password = some p → p ≠ "") ∧
    (∀ q, cfg.clientSecret = some q → q ≠ "") := by
  have hassem : ∃ conn, cfg = assembleConfig conn cr := by
    cases s with
    | none => simp [load] at h
    | some st =>
      cases hsrc : st.source with
      | none => simp [load, hsrc] at h
      | some src =>
        simp only [load, hsrc] at h
        split at h
        · exact absurd h (by simp)
        · split at h
          · exact absurd h (by simp)
          · rename_i conn hsel
            exact ⟨conn, (Option.some.inj h).symm⟩
  obtain ⟨conn, rfl⟩ := hassem
  cases cr with
  | none =>
    constructor
    · intro p hp
      exact absurd hp (by simp [assembleConfig, buildBaseConfig])
    · intro q hq
      exact absurd hq (by simp [assembleConfig, buildBaseConfig])
  | some c =>
    constructor
    · intro p hp
      rw [show assembleConfig conn (some c)
          = applyClientSecret (applyPassword (buildBaseConfig conn) conn c) c from rfl,
        applyClientSecret_password] at hp
      exact applyPassword_password_nonempty _ conn c p rfl hp
    · intro q hq
      rw [show assembleConfig conn (some c)
          = applyClientSecret (applyPassword (buildBaseConfig conn) conn c) c from rfl]
        at hq
      exact applyClientSecret_clientSecret_nonempty _ c q
        (by rw [applyPassword_clientSecret]; rfl) hq

def connW : IntellijConnection :=
  { emptyConn with
    name := some "prod"
    hostname := some "h1"
    username := some "u1"
    active := some true }

def credsW : Credentials :=
  ⟨[⟨"u1", some "pw", none, none⟩], [⟨"cid", "cs"⟩]⟩

def cfgW : NormalizedConfig :=
  { hostname := some "h1", webdavHostname := none, username := some "u1",
    codeVersion := none, shortCode := none, clientId := none,
    password := some "pw", clientSecret := none }

/-- Witness for C9 at a concrete input: a load that resolves the active
connection and finds a plain password produces that password, and the
theorem yields its non-emptiness. -/
theorem load_password_clientSecret_nonempty_witness :
    load (some ⟨some [connW]⟩) none (some credsW) = some cfgW ∧ ("pw" : String) ≠ "" :=
  ⟨rfl, (load_password_clientSecret_nonempty (some ⟨some [connW]⟩) none
    (some credsW) cfgW rfl).1 "pw" rfl⟩

/-! ### Credential matcher claims -/

/-- C7: `findPassword` returns absent when no account's username
matches; when the first matching account has no applicable WebDAV
access key — in particular when it has no access keys at all — it falls
back to that account's plain `password` field. -/
theorem findPassword_fallback (cr : Credentials) (u h : String) (acc : Account) :
    ((∀ a ∈ cr.accounts, a.username ≠ u) → findPassword cr u h = none) ∧
    (cr.accounts.find? (fun a => a.username == u) = some acc →
      webdavKey acc u h = none → findPassword cr u h = acc.password) ∧
    (cr.accounts.find? (fun a => a.username == u) = some acc →
      acc.accessKeys = none → findPassword cr u h = acc.password) := by
  refine ⟨?_, ?_, ?_⟩
  · intro hnone
    unfold findPassword
    rw [List.find?_eq_none.mpr (fun a ha => by simp [hnone a ha])]
  · intro hfind hweb
    unfold findPassword
    rw [hfind]
    show (match webdavKey acc u h with
      | some w => some w
      | none => acc.password) = acc.password
    rw [hweb]
  · intro hfind hak
    unfold findPassword
    rw [hfind]
    show (match webdavKey acc u h with
      | some w => some w
      | none => acc.password) = acc.password
    rw [show webdavKey acc u h = none from by unfold webdavKey; rw [hak]]

/-- Witness for C7 at concrete inputs: an unknown username yields
absent, and an account with only a plain password yields that
password. -/
theorem findPassword_fallback_witness :
    findPassword credsW "nobody" "h1" = none ∧
    findPassword credsW "u1" "h1" = some "pw" := by
  constructor
  · exact (findPassword_fallback credsW "nobody" "h1"
      ⟨"u1", some "pw", none, none⟩).1 (by decide)
  · exact (findPassword_fallback credsW "u1" "h1"
      ⟨"u1", some "pw", none, none⟩).2.2 (by decide) rfl

/-- The credential store refuting C4 as stated: the single account for
`u1` has two access-key sets whose `username` matches; the first one
maps host `h1` to an empty `WebDAV` entry, the second to `ak1`. -/
def ck4Account : Account :=
  ⟨"u1", some "plainpw", none,
    some [⟨"u1", [("h1", [("WebDAV", "")])]⟩,
          ⟨"u1", [("h1", [("WebDAV", "ak1")])]⟩]⟩

def ck4Creds : Credentials := ⟨[ck4Account], []⟩

/-- Counterexample to C4 as stated: the store contains an account whose
username matches, that account has an AccessKeySet whose username
matches and whose mapping for the hostname contains a `WebDAV` entry
(`"ak1"`, and the first set even contains the entry `""`), yet
`findPassword` returns the plain password: the code only consults the
first matching AccessKeySet and ignores a falsy (empty) `WebDAV`
value. -/
theorem findPassword_webdav_counterexample :
    ck4Account ∈ ck4Creds.accounts ∧ ck4Account.username = "u1" ∧
    (∃ sets, ck4Account.accessKeys = some sets ∧
      ∃ ak, ak ∈ sets ∧ ak.username = "u1" ∧
        ∃ hk, lookupRecord ak.keys "h1" = some hk ∧
          lookupRecord hk "WebDAV" = some "ak1") ∧
    ck4Account.password = some "plainpw" ∧
    findPassword ck4Creds "u1" "h1" ≠ some "ak1" ∧
    findPassword ck4Creds "u1" "h1" = some "plainpw" := by
  refine ⟨by decide, rfl, ?_, rfl, by decide, rfl⟩
  exact ⟨_, rfl, ⟨"u1", [("h1", [("WebDAV", "ak1")])]⟩, by decide, rfl,
    [("WebDAV", "ak1")], rfl, rfl⟩

/-- C4 amended: when the *first* AccessKeySet whose username matches
(within the first matching account) maps the hostname to a *non-empty*
`WebDAV` entry, `findPassword` returns that entry immediately, in
preference to the account's plain password even when the plain password
is also defined. -/
theorem findPassword_webdav_priority (cr : Credentials) (u h : String)
    (acc : Account) (sets : List AccessKeySet) (ak : AccessKeySet)
    (hk : List (String × String)) (w : String)
    (hacc : cr.accounts.find? (fun a => a.username == u) = some acc)
    (hsets : acc.accessKeys = some sets)
    (hak : sets.find? (fun s => s.username == u) = some ak)
    (hhk : lookupRecord ak.keys h = some hk)
    (hw : lookupRecord hk "WebDAV" = some w) (hne : w ≠ "") :
    findPassword cr u h = some w := by
  unfold findPassword
  rw [hacc]
  show (match webdavKey acc u h with
    | some w => some w
    | none => acc.password) = some w
  rw [show webdavKey acc u h = some w from by
    unfold webdavKey
    simp only [hsets, hak, hhk, hw]
    simp [hne]]

/-- Witness for the amended C4 at a concrete input: the account holds
both a per-host WebDAV access key and a plain password, and the access
key wins. -/
theorem findPassword_webdav_priority_witness :
    findPassword ⟨[⟨"u1", some "plainpw", none,
        some [⟨"u1", [("h1", [("WebDAV", "ak1")])]⟩]⟩], []⟩ "u1" "h1" = some "ak1" :=
  findPassword_webdav_priority _ "u1" "h1"
    ⟨"u1", some "plainpw", none, some [⟨"u1", [("h1", [("WebDAV", "ak1")])]⟩]⟩
    [⟨"u1", [("h1", [("WebDAV", "ak1")])]⟩] ⟨"u1", [("h1", [("WebDAV", "ak1")])]⟩
    [("WebDAV", "ak1")] "ak1" rfl rfl rfl rfl rfl (by decide)

/-! ### Settings-extractor and vault claims -/

/-- C2 (refuted by the code — the code contradicts the spec's
silent-failure contract): when the file exists, `readFileSync`
succeeds, and the XML parser throws — as `fast-xml-parser` does on a
malformed document such as one with an unclosed comment — the
exception propagates out of `getConnectionSettings` instead of
collapsing to absent, because `parser.parse` (line 93) sits outside
the only `try/catch` in the function (which guards just
`JSON.parse`). -/
theorem getConnectionSettings_throws_on_malformed_xml
    (readFile : Except String String)
    (parseXml : String → Except String (List XTop))
    (parseJson : String → Option ConnectionSettings) (content e : String)
    (hread : readFile = .ok content) (hxml : parseXml content = .error e) :
    getConnectionSettings true readFile parseXml parseJson = .error e := by
  unfold getConnectionSettings
  rw [hread]
  simp [hxml]

/-- C3: the credential vault returns the parsed store exactly when
base64 decoding, the cipher (algorithm/key acceptance, update and final
padding), and JSON parsing of the plaintext all succeed; any failure at
any stage yields `none`, and the function is total, so no cryptographic
error propagates past the boundary. -/
theorem decryptCredentials_spec (b64 : String → Option (List Nat))
    (dec : String → String → List Nat → Option (List Nat))
    (pj : List Nat → Option Credentials) (ct k alg : String) (c : Credentials) :
    decryptCredentials b64 dec pj ct k alg = some c ↔
      ∃ buffer, b64 ct = some buffer ∧
        ∃ plain, dec alg k buffer = some plain ∧ pj plain = some c := by
  unfold decryptCredentials
  rcases hb : b64 ct with _ | buf
  · simp [hb]
  · simp only [hb, Option.some.injEq, exists_eq_left']
    rcases hd : dec alg k buf with _ | plain
    · simp [hd]
    · simp only [hd, Option.some.injEq, exists_eq_left']
      rcases hp : pj plain with _ | c'
      · simp [hp]
      · simp [hp, eq_comm]

/-- Witness for C8 at a concrete input: `useOcapi = true` and a
non-empty `clientId` make the assembled `clientId` present. -/
theorem assembled_clientId_iff_witness :
    (assembleConfig
      { emptyConn with useOcapi := some true, clientId := some "cid" }
      none).clientId = some "cid" :=
  (assembled_clientId_iff
    { emptyConn with useOcapi := some true, clientId := some "cid" }
    none "cid").mpr ⟨rfl, rfl, by decide⟩

/-- Witness for C2's failing input at concrete values: the file exists,
its content is `<project><!--` (an unclosed comment), the parser
oracle throws the message `fast-xml-parser` raises for it, and the
exception escapes `getConnectionSettings`. -/
theorem getConnectionSettings_throws_witness :
    getConnectionSettings true (.ok "<project><!--")
      (fun _ => .error "Comment is not closed.") (fun _ => none) =
      .error "Comment is not closed." :=
  getConnectionSettings_throws_on_malformed_xml (.ok "<project><!--")
    (fun _ => .error "Comment is not closed.") (fun _ => none)
    "<project><!--" "Comment is not closed." rfl rfl

/-- Witness for C3 at a concrete input: when every stage succeeds the
decrypted store is returned. -/
theorem decryptCredentials_spec_witness :
    decryptCredentials (fun _ => some [1]) (fun _ _ _ => some [2])
      (fun _ => some ⟨[], []⟩) "ct" "k" "alg" = some ⟨[], []⟩ :=
  (decryptCredentials_spec (fun _ => some [1]) (fun _ _ _ => some [2])
    (fun _ => some ⟨[], []⟩) "ct" "k" "alg" ⟨[], []⟩).mpr
    ⟨[1], rfl, [2], rfl, rfl⟩

end IntellijSFCC
